import Mathlib

/-!
Verification of the prediction-serving workflow of the crypto-liquidity
dashboard (`app/streamlit_app.py`).

The embedding below translates the Python code into Lean:

* Cell values (`PyVal`) are the scalars the app sees: `None`, strings, and
  numbers.  Numbers (`PyNum`) are kept exact — a rational together with the
  IEEE specials `inf`, `-inf`, `nan`.  The modelled code performs no float
  arithmetic on these values (it only parses, reorders and stores them), so
  exact values are a faithful idealisation.
* `pyFloatOfString` models Python `float(str)` (also the numeric parse used
  by `pandas.to_numeric`): optional surrounding whitespace, an optional
  sign, then `inf` / `infinity` / `nan` (case-insensitive) or a decimal
  literal with optional fraction and exponent.
* The history CSV is modelled as `Option (List CsvLine)` — `none` while the
  file does not exist, otherwise its lines (header or data).
* The two Streamlit button handlers become the state-passing functions
  `singlePredict` and `batchPredict`; the frames passed to
  `model.predict` are recorded in the outcome (`predictCalls`) so that
  "the model is invoked once on the whole batch" is expressible.
-/

/-- Exact model of a Python float value: a rational for finite floats plus
the IEEE special values.  No rounding is modelled because the embedded code
never computes with these values. -/
inductive PyNum where
  | fin (q : ℚ)
  | inf
  | negInf
  | nan
deriving DecidableEq, Repr

/-- A scalar cell value as the app sees it: Python `None`, a string, or a
number. -/
inductive PyVal where
  | vNone
  | vStr (s : String)
  | vNum (x : PyNum)
deriving DecidableEq, Repr

/-- True exactly on finite values (not `inf`, `-inf` or `nan`). -/
def PyNum.isFinite : PyNum → Bool
  | PyNum.fin _ => true
  | _ => false

/-- Negation of a Python float; the sign of `nan` is not observable. -/
def PyNum.neg : PyNum → PyNum
  | PyNum.fin q => PyNum.fin (-q)
  | PyNum.inf => PyNum.negInf
  | PyNum.negInf => PyNum.inf
  | PyNum.nan => PyNum.nan

/-- Strip leading and trailing whitespace, as Python `float(str)` does. -/
def trimChars (cs : List Char) : List Char :=
  ((cs.dropWhile Char.isWhitespace).reverse.dropWhile Char.isWhitespace).reverse

/-- Leading sign of a numeric literal: `(isNegative, remaining characters)`. -/
def splitSign : List Char → Bool × List Char
  | '+' :: rest => (false, rest)
  | '-' :: rest => (true, rest)
  | cs => (false, cs)

/-- All characters are decimal digits. -/
def allDigits (cs : List Char) : Bool :=
  cs.all fun c => decide ('0' ≤ c) && decide (c ≤ '9')

/-- Numeric value of a digit string (most significant first). -/
def natOfDigits (cs : List Char) : Nat :=
  cs.foldl (fun a c => 10 * a + (c.toNat - 48)) 0

/-- Value `m * 10 ^ e` as an exact rational. -/
def decValue (m : Nat) (e : Int) : ℚ :=
  if 0 ≤ e then (m : ℚ) * (10 : ℚ) ^ e.toNat else (m : ℚ) / (10 : ℚ) ^ e.natAbs

/-- Parse the mantissa of a decimal literal (digits, optionally with one
point, at least one digit in total): digit value together with the number of
fractional digits. -/
def parseMantissa (cs : List Char) : Option (Nat × Nat) :=
  let ip := cs.takeWhile (fun c => c ≠ '.')
  let rest := cs.dropWhile (fun c => c ≠ '.')
  match rest with
  | [] => if ip ≠ [] && allDigits ip then some (natOfDigits ip, 0) else Option.none
  | _ :: fp =>
    if (ip ≠ [] || fp ≠ []) && allDigits ip && allDigits fp then
      some (natOfDigits (ip ++ fp), fp.length)
    else Option.none

/-- Parse a (signed) decimal exponent. -/
def parseExp (cs : List Char) : Option Int :=
  let sd := splitSign cs
  if sd.2 ≠ [] && allDigits sd.2 then
    some (if sd.1 then -(natOfDigits sd.2 : Int) else (natOfDigits sd.2 : Int))
  else Option.none

/-- Model of Python `float(str)` (and of the numeric parse inside
`pandas.to_numeric`): `none` when the string is not a float literal. -/
def pyFloatOfString (s : String) : Option PyNum :=
  let cs := trimChars s.toList
  let sb := splitSign cs
  let neg := sb.1
  let lower := sb.2.map Char.toLower
  if lower = "inf".toList || lower = "infinity".toList then
    some (if neg then PyNum.negInf else PyNum.inf)
  else if lower = "nan".toList then
    some PyNum.nan
  else
    let mant := sb.2.takeWhile fun c => c ≠ 'e' && c ≠ 'E'
    let rest := sb.2.dropWhile fun c => c ≠ 'e' && c ≠ 'E'
    match rest with
    | [] =>
      (parseMantissa mant).map fun me =>
        let q := decValue me.1 (-(me.2 : Int))
        PyNum.fin (if neg then -q else q)
    | _ :: ex =>
      match parseMantissa mant, parseExp ex with
      | some me, some e =>
        let q := decValue me.1 (e - (me.2 : Int))
        some (PyNum.fin (if neg then -q else q))
      | _, _ => Option.none

/-- Source `streamlit_app.py` line 37: the 8 numeric features the model consumes. -/
def MODEL_FEATURES : List String :=
  ["price", "1h", "24h", "7d", "24h_volume", "mkt_cap",
   "liquidity_ratio", "price_change_24h"]

/-- Source `streamlit_app.py` line 49: the full UI fields, including the three
display-only string fields. -/
def UI_FIELDS : List String :=
  ["coin", "symbol", "price", "1h", "24h", "7d",
   "24h_volume", "mkt_cap", "date", "liquidity_ratio", "price_change_24h"]

/-- A UI record / one row of an uploaded table: an association list from
column name to cell value.  A key that is absent models a missing column. -/
abbrev Record := List (String × PyVal)

/-- Dictionary lookup (`d.get(k)` / column access). -/
def getVal (d : Record) (k : String) : Option PyVal :=
  List.lookup k d

/-- Single-mode field coercion, `prepare_model_df_from_ui_dict` lines
99-109: `v = d.get(f, 0.0)`; empty string or `None` becomes `0.0`;
`float(v)` with any exception absorbed to `0.0`. -/
def coerceSingleVal (v : Option PyVal) : PyNum :=
  match v with
  | Option.none => PyNum.fin 0
  | some PyVal.vNone => PyNum.fin 0
  | some (PyVal.vStr s) =>
    if s = "" then PyNum.fin 0 else (pyFloatOfString s).getD (PyNum.fin 0)
  | some (PyVal.vNum x) => x

/-- Model of `Series.fillna(0.0)`: replace `nan` by `0.0`, keep everything else. -/
def fillnaZero : PyNum → PyNum
  | PyNum.nan => PyNum.fin 0
  | x => x

/-- Model of `pd.to_numeric(x, errors="coerce")` on one cell: numbers pass through,
strings parse or become `nan`, `None` becomes `nan`. -/
def toNumericCoerce : PyVal → PyNum
  | PyVal.vNone => PyNum.nan
  | PyVal.vNum x => x
  | PyVal.vStr s => (pyFloatOfString s).getD PyNum.nan

/-- Batch-mode field coercion, lines 407-412: a missing column is filled
with `0.0`; a present column goes through
`pd.to_numeric(col, errors="coerce").fillna(0.0)` cell-wise.  (Column
presence is table-wide in pandas; rows of one table share their key set, so
the per-cell reading coincides on reachable inputs.) -/
def coerceBatchVal (v : Option PyVal) : PyNum :=
  match v with
  | Option.none => PyNum.fin 0
  | some w => fillnaZero (toNumericCoerce w)

/-- Column-order selection shared by lines 113-117 and 415-418: the frame
built by the adapter has exactly the columns `MODEL_FEATURES`, so
`all(name in df.columns for name in model_feature_names)` holds iff every
declared name is one of the 8 features; then the declared order is
selected, else the canonical `MODEL_FEATURES` order. -/
def chooseOrder (modelFeatureNames : List String) : List String :=
  if modelFeatureNames.all (fun n => decide (n ∈ MODEL_FEATURES)) then
    modelFeatureNames
  else MODEL_FEATURES

/-- A model-input frame: ordered column names, and per input row the cell
values listed in column order. -/
structure Frame where
  cols : List String
  rows : List (List PyNum)
deriving DecidableEq, Repr

/-- Lines 94-118: coerce the 8 features of one UI dict and emit a one-row
frame in the selected column order.  (Both branches of the reorder select
only names among `MODEL_FEATURES`, which are exactly the keys of the built
row dict.) -/
def prepare_model_df_from_ui_dict (modelFeatureNames : List String)
    (d : Record) : Frame :=
  let order := chooseOrder modelFeatureNames
  { cols := order
    rows := [order.map fun f => coerceSingleVal (getVal d f)] }

/-- Lines 405-418 of the batch handler: for each feature of
`MODEL_FEATURES` coerce the (filled) uploaded column, then select the
chosen column order.  Building column-by-column then selecting is, per
row, the chosen order's names mapped over the coerced cells. -/
def batch_model_frame (modelFeatureNames : List String)
    (rows : List Record) : Frame :=
  let order := chooseOrder modelFeatureNames
  { cols := order
    rows := rows.map fun d => order.map fun f => coerceBatchVal (getVal d f) }

/-- One row of the prediction-history CSV. -/
structure HistRow where
  inputs : Record
  prediction : PyNum
  mode : String
  timestamp : Nat
deriving DecidableEq, Repr

/-- A line of the history CSV: the header or one data row. -/
inductive CsvLine where
  | header (cols : List String)
  | data (row : HistRow)
deriving DecidableEq, Repr

/-- True exactly on data lines. -/
def CsvLine.isData : CsvLine → Bool
  | CsvLine.data _ => true
  | CsvLine.header _ => false

/-- The history CSV file: `none` while it does not exist. -/
abbrev HistoryFile := Option (List CsvLine)

/-- Header written on first creation: the frame saved by both handlers has
the `UI_FIELDS` columns followed by `prediction`, `mode`, `timestamp`. -/
def historyHeader : List String :=
  UI_FIELDS ++ ["prediction", "mode", "timestamp"]

/-- The data lines one `save_history_csv` call writes: the UI rows paired
with their predictions, all sharing `mode` and one timestamp. -/
def historyDataLines (uiRows : List Record) (preds : List PyNum)
    (mode : String) (now : Nat) : List CsvLine :=
  (uiRows.zip preds).map fun rp =>
    CsvLine.data { inputs := rp.1, prediction := rp.2, mode := mode, timestamp := now }

/-- Lines 143-151: append the rows (with `prediction`, `mode`, `timestamp`
columns) to the history CSV; when the file does not exist, create it with
a header line first. -/
def save_history_csv (f : HistoryFile) (uiRows : List Record)
    (preds : List PyNum) (mode : String) (now : Nat) : HistoryFile :=
  match f with
  | some ls => some (ls ++ historyDataLines uiRows preds mode now)
  | Option.none =>
    some (CsvLine.header historyHeader :: historyDataLines uiRows preds mode now)

/-- The data row a CSV line carries, if any. -/
def CsvLine.asData : CsvLine → Option HistRow
  | CsvLine.data r => some r
  | CsvLine.header _ => Option.none

/-- Reading the history (lines 500-503): no file means no rows; otherwise
the data lines after the header. -/
def readAll (f : HistoryFile) : List HistRow :=
  match f with
  | Option.none => []
  | some ls => ls.filterMap CsvLine.asData

/-- The loaded predictive model: the optional `feature_names_in_`
attribute (lines 72-75 fall back to `MODEL_FEATURES` when absent) and an
opaque `predict` that may raise. -/
structure Model where
  feature_names_in_ : Option (List String)
  predict : Frame → Except String (List PyNum)

/-- Lines 72-75: `model_feature_names` is `feature_names_in_` when the
attribute exists, else a copy of `MODEL_FEATURES`. -/
def model_feature_names (m : Model) : List String :=
  m.feature_names_in_.getD MODEL_FEATURES

/-- Line 371: the row written to history by the single handler,
`{k: ui.get(k, "") for k in UI_FIELDS}`. -/
def uiRowForHistory (ui : Record) : Record :=
  UI_FIELDS.map fun k => (k, (getVal ui k).getD (PyVal.vStr ""))

/-- Lines 401-403 of the batch handler: add every missing `UI_FIELDS`
column, defaulting `coin`/`symbol`/`date` to `""` and the numeric fields
to `0.0`; existing columns are untouched. -/
def uiFieldDefault (k : String) : PyVal :=
  if k = "coin" || k = "symbol" || k = "date" then PyVal.vStr ""
  else PyVal.vNum (PyNum.fin 0)

/-- Fill the missing UI columns of one row (see `uiFieldDefault`). -/
def fillMissingUIFields (d : Record) : Record :=
  d ++ (UI_FIELDS.filter fun k => (getVal d k).isNone).map fun k => (k, uiFieldDefault k)

/-- Observable outcome of the single-predict button handler. -/
structure SingleOutcome where
  /-- The value displayed by `st.success`, when reached. -/
  shown : Option PyNum
  /-- The `st.error` message of the `except` branch, when it ran. -/
  errMsg : Option String
  /-- The history CSV after the handler. -/
  file : HistoryFile
  /-- The frames passed to `model.predict`, in call order. -/
  predictCalls : List Frame
  /-- Whether the PDF download button was offered. -/
  pdfOffered : Bool
deriving DecidableEq

/-- Lines 363-381: the single-predict button handler.  Build the model
frame, predict, show the first prediction, save one history row, generate
the PDF and offer it; any raise lands in the `except` branch showing an
error, and a raise before a step skips that step. -/
def singlePredict (m : Model) (pdfGen : Record → PyNum → Except String Unit)
    (ui : Record) (now : Nat) (f : HistoryFile) : SingleOutcome :=
  let model_df := prepare_model_df_from_ui_dict (model_feature_names m) ui
  match m.predict model_df with
  | Except.error e =>
    { shown := Option.none, errMsg := some ("Prediction failed: " ++ e),
      file := f, predictCalls := [model_df], pdfOffered := false }
  | Except.ok preds =>
    match preds.head? with
    | Option.none =>
      -- `float(preds[0])` raises on an empty result
      { shown := Option.none, errMsg := some "Prediction failed: index 0 is out of bounds",
        file := f, predictCalls := [model_df], pdfOffered := false }
    | some pred =>
      let f' := save_history_csv f [uiRowForHistory ui] [pred] "single" now
      match pdfGen ui pred with
      | Except.error e =>
        { shown := some pred, errMsg := some ("Prediction failed: " ++ e),
          file := f', predictCalls := [model_df], pdfOffered := false }
      | Except.ok _ =>
        { shown := some pred, errMsg := Option.none,
          file := f', predictCalls := [model_df], pdfOffered := true }

/-- Observable outcome of the batch-predict button handler. -/
structure BatchOutcome where
  /-- The displayed/downloadable rows with their predictions (`out`). -/
  table : Option (List (Record × PyNum))
  /-- Whether `st.warning("No rows.")` was shown. -/
  warned : Bool
  /-- The `st.error` message of the `except` branch, when it ran. -/
  errMsg : Option String
  /-- The history CSV after the handler. -/
  file : HistoryFile
  /-- The frames passed to `model.predict`, in call order. -/
  predictCalls : List Frame
deriving DecidableEq

/-- Lines 395-434: the batch-predict button handler.  An empty table only
warns; otherwise fill missing UI columns, build the model frame over all
rows, predict once, attach predictions (`out["prediction"] = preds` raises
unless the lengths agree), save the `UI_FIELDS` projection of the rows to
history, and offer the full rows for download. -/
def batchPredict (m : Model) (rows : List Record) (now : Nat)
    (f : HistoryFile) : BatchOutcome :=
  if rows.length = 0 then
    { table := Option.none, warned := true, errMsg := Option.none,
      file := f, predictCalls := [] }
  else
    let ui_batch := rows.map fillMissingUIFields
    let model_batch := batch_model_frame (model_feature_names m) rows
    match m.predict model_batch with
    | Except.error e =>
      { table := Option.none, warned := false,
        errMsg := some ("Batch prediction failed: " ++ e),
        file := f, predictCalls := [model_batch] }
    | Except.ok preds =>
      if preds.length = ui_batch.length then
        let out := ui_batch.zip preds
        let f' := save_history_csv f (ui_batch.map uiRowForHistory) preds "batch" now
        { table := some out, warned := false, errMsg := Option.none,
          file := f', predictCalls := [model_batch] }
      else
        { table := Option.none, warned := false,
          errMsg := some "Batch prediction failed: length mismatch",
          file := f, predictCalls := [model_batch] }

/-!  Helper lemmas shared by the claim theorems. -/

lemma filterMap_asData_dataLines (rs : List (Record × PyNum)) (mode : String)
    (now : Nat) :
    List.filterMap CsvLine.asData
      (rs.map fun rp =>
        CsvLine.data { inputs := rp.1, prediction := rp.2, mode := mode, timestamp := now }) =
      rs.map fun rp =>
        { inputs := rp.1, prediction := rp.2, mode := mode, timestamp := now } := by
  induction rs with
  | nil => rfl
  | cons a l ih => simp [CsvLine.asData, ih]

lemma readAll_save (f : HistoryFile) (uiRows : List Record) (preds : List PyNum)
    (mode : String) (now : Nat) :
    readAll (save_history_csv f uiRows preds mode now) =
      readAll f ++ (uiRows.zip preds).map fun rp =>
        { inputs := rp.1, prediction := rp.2, mode := mode, timestamp := now } := by
  cases f with
  | none =>
    simp only [save_history_csv, readAll, historyDataLines, List.filterMap_cons,
      CsvLine.asData, filterMap_asData_dataLines]
    simp
  | some ls =>
    simp only [save_history_csv, readAll, historyDataLines, List.filterMap_append,
      filterMap_asData_dataLines]

lemma getVal_append_left (d t : Record) (k : String) (v : PyVal)
    (h : getVal d k = some v) : getVal (d ++ t) k = some v := by
  induction d with
  | nil => simp [getVal] at h
  | cons a d ih =>
    simp only [getVal, List.lookup, List.cons_append] at h ⊢
    by_cases hk : k == a.1
    · simpa [hk] using h
    · simp only [hk] at h ⊢
      exact ih h

lemma lookup_map_keys (ks : List String) (g : String → PyVal) (k : String)
    (hk : k ∉ ks) :
    List.lookup k (ks.map fun a => (a, g a)) = Option.none := by
  induction ks with
  | nil => simp
  | cons a ks ih =>
    simp only [List.map_cons, List.lookup]
    have hne : ¬ (k == a) = true := by
      simp only [beq_iff_eq]
      intro h
      exact hk (h ▸ List.mem_cons_self a ks)
    simp only [hne]
    exact ih fun h => hk (List.mem_cons_of_mem a h)

/-- One `save_history_csv` call, as data: the arguments of the append. -/
structure AppendOp where
  uiRows : List Record
  preds : List PyNum
  mode : String
  now : Nat

/-- Apply one append to the history file. -/
def applyAppend (f : HistoryFile) (op : AppendOp) : HistoryFile :=
  save_history_csv f op.uiRows op.preds op.mode op.now

/-- Apply a sequence of appends, oldest first. -/
def appendMany (f : HistoryFile) (ops : List AppendOp) : HistoryFile :=
  ops.foldl applyAppend f

/-- The data lines one append writes. -/
def opDataLines (op : AppendOp) : List CsvLine :=
  historyDataLines op.uiRows op.preds op.mode op.now

/-- The lines of the history file (none while it does not exist). -/
def fileLines (f : HistoryFile) : List CsvLine :=
  f.getD []

lemma appendMany_some (ops : List AppendOp) (ls : List CsvLine) :
    appendMany (some ls) ops = some (ls ++ (ops.map opDataLines).flatten) := by
  induction ops generalizing ls with
  | nil => simp [appendMany]
  | cons op ops ih =>
    simp only [appendMany, List.foldl_cons] at ih ⊢
    rw [show applyAppend (some ls) op = some (ls ++ opDataLines op) from rfl]
    rw [ih]
    simp

/-- C6: `predictMany` on an empty input sequence only reports "No rows."
to the caller: the model is never invoked and the history file is
unchanged. -/
theorem empty_batch_warns_no_call (m : Model) (now : Nat) (f : HistoryFile) :
    (batchPredict m [] now f).warned = true ∧
    (batchPredict m [] now f).predictCalls = [] ∧
    (batchPredict m [] now f).file = f ∧
    (batchPredict m [] now f).table = Option.none := by
  simp [batchPredict]

/-- C7: the history store is append-only and header-correct for every
sequence of appends: starting from a non-existent file, the first append
creates it with exactly one header line followed by data lines, all later
appends add data lines only, and the lines already present are never
rewritten or removed — the file grows monotonically. -/
theorem history_append_only (op : AppendOp) (ops : List AppendOp)
    (f : HistoryFile) :
    appendMany Option.none (op :: ops) =
      some (CsvLine.header historyHeader :: ((op :: ops).map opDataLines).flatten) ∧
    (((op :: ops).map opDataLines).flatten).all CsvLine.isData = true ∧
    ∃ new, fileLines (appendMany f (op :: ops)) = fileLines f ++ new := by
  refine ⟨?_, ?_, ?_⟩
  · simp only [appendMany, List.foldl_cons]
    rw [show applyAppend Option.none op =
          some (CsvLine.header historyHeader :: opDataLines op) from rfl]
    have := appendMany_some ops (CsvLine.header historyHeader :: opDataLines op)
    simp only [appendMany] at this
    rw [this]
    simp
  · simp only [List.all_eq_true, List.mem_flatten, List.mem_map]
    rintro l ⟨_, ⟨op', _, rfl⟩, hl⟩
    simp only [opDataLines, historyDataLines, List.mem_map] at hl
    obtain ⟨rp, _, rfl⟩ := hl
    rfl
  · cases f with
    | none =>
      exact ⟨fileLines (appendMany Option.none (op :: ops)), by simp [fileLines]⟩
    | some ls =>
      refine ⟨((op :: ops).map opDataLines).flatten, ?_⟩
      rw [show appendMany (some ls) (op :: ops) =
            some (ls ++ ((op :: ops).map opDataLines).flatten) from appendMany_some _ _]
      rfl

/-- C1: when the single-predict handler reaches its success display (the
model call returned a first prediction `p`), one history row with mode
"single" and the current timestamp is appended: `readAll` afterwards is one
longer than before and its last row carries prediction value `p` on the
saved UI fields.  This holds whether or not the later PDF step succeeds,
since the row is saved first. -/
theorem single_success_appends_one_row
    (m : Model) (pdfGen : Record → PyNum → Except String Unit)
    (ui : Record) (now : Nat) (f : HistoryFile) (p : PyNum)
    (h : (singlePredict m pdfGen ui now f).shown = some p) :
    (readAll (singlePredict m pdfGen ui now f).file).length =
      (readAll f).length + 1 ∧
    (readAll (singlePredict m pdfGen ui now f).file).getLast? =
      some { inputs := uiRowForHistory ui, prediction := p,
             mode := "single", timestamp := now } := by
  simp only [singlePredict] at h ⊢
  cases hp : m.predict (prepare_model_df_from_ui_dict (model_feature_names m) ui) with
  | error e => simp only [hp] at h; simp at h
  | ok preds =>
    simp only [hp] at h ⊢
    cases hh : preds.head? with
    | none => simp only [hh] at h; simp at h
    | some pred =>
      simp only [hh] at h ⊢
      cases hpdf : pdfGen ui pred with
      | error e =>
        simp only [hpdf, Option.some.injEq] at h ⊢
        subst h
        rw [readAll_save]
        simp
      | ok u =>
        simp only [hpdf, Option.some.injEq] at h ⊢
        subst h
        rw [readAll_save]
        simp

/-- C10: when the model call succeeds but the PDF generation raises, the
handler shows an error and offers no download, yet the history row was
already appended and is not removed: `readAll` still grows by exactly 1
and its last row is the new prediction. -/
theorem pdf_failure_keeps_history_row
    (m : Model) (pdfGen : Record → PyNum → Except String Unit)
    (ui : Record) (now : Nat) (f : HistoryFile)
    (preds : List PyNum) (p : PyNum) (e : String)
    (hp : m.predict (prepare_model_df_from_ui_dict (model_feature_names m) ui) =
      Except.ok preds)
    (hh : preds.head? = some p)
    (hpdf : pdfGen ui p = Except.error e) :
    (singlePredict m pdfGen ui now f).errMsg.isSome = true ∧
    (singlePredict m pdfGen ui now f).pdfOffered = false ∧
    (readAll (singlePredict m pdfGen ui now f).file).length =
      (readAll f).length + 1 ∧
    (readAll (singlePredict m pdfGen ui now f).file).getLast? =
      some { inputs := uiRowForHistory ui, prediction := p,
             mode := "single", timestamp := now } := by
  simp only [singlePredict, hp, hh, hpdf]
  rw [readAll_save]
  simp

/-- A model without `feature_names_in_` that returns one prediction `7`
per input row and never raises. -/
def okModel : Model :=
  { feature_names_in_ := Option.none
    predict := fun fr => Except.ok (fr.rows.map fun _ => PyNum.fin 7) }

/-- A model whose prediction call always raises. -/
def errModel : Model :=
  { feature_names_in_ := Option.none
    predict := fun _ => Except.error "boom" }

/-- A PDF generator that always succeeds. -/
def okPdf : Record → PyNum → Except String Unit := fun _ _ => Except.ok ()

/-- A PDF generator that always raises. -/
def errPdf : Record → PyNum → Except String Unit := fun _ _ => Except.error "pdf"

theorem single_success_appends_one_row_witness :
    (readAll (singlePredict okModel okPdf [] 0 Option.none).file).length =
      (readAll (Option.none : HistoryFile)).length + 1 ∧
    (readAll (singlePredict okModel okPdf [] 0 Option.none).file).getLast? =
      some { inputs := uiRowForHistory [], prediction := PyNum.fin 7,
             mode := "single", timestamp := 0 } :=
  single_success_appends_one_row okModel okPdf [] 0 Option.none (PyNum.fin 7)
    (by decide)

theorem pdf_failure_keeps_history_row_witness :
    (singlePredict okModel errPdf [] 0 Option.none).errMsg.isSome = true ∧
    (singlePredict okModel errPdf [] 0 Option.none).pdfOffered = false ∧
    (readAll (singlePredict okModel errPdf [] 0 Option.none).file).length =
      (readAll (Option.none : HistoryFile)).length + 1 ∧
    (readAll (singlePredict okModel errPdf [] 0 Option.none).file).getLast? =
      some { inputs := uiRowForHistory [], prediction := PyNum.fin 7,
             mode := "single", timestamp := 0 } :=
  pdf_failure_keeps_history_row okModel errPdf [] 0 Option.none
    [PyNum.fin 7] (PyNum.fin 7) "pdf" (by rfl) (by rfl) (by rfl)

/-- C4: when the model's predict call raises (feature derivation itself is
total — every exception inside it is absorbed to `0.0`), the handler
reports an error and the history file is completely unchanged, both for a
single record and for a non-empty batch. -/
theorem predict_failure_leaves_history
    (m : Model) (pdfGen : Record → PyNum → Except String Unit)
    (ui : Record) (rows : List Record) (now : Nat) (f : HistoryFile)
    (e1 e2 : String) :
    (m.predict (prepare_model_df_from_ui_dict (model_feature_names m) ui) =
        Except.error e1 →
      (singlePredict m pdfGen ui now f).file = f ∧
      (singlePredict m pdfGen ui now f).errMsg.isSome = true) ∧
    (rows ≠ [] →
      m.predict (batch_model_frame (model_feature_names m) rows) =
        Except.error e2 →
      (batchPredict m rows now f).file = f ∧
      (batchPredict m rows now f).errMsg.isSome = true) := by
  constructor
  · intro hp
    simp [singlePredict, hp]
  · intro hne hp
    have hlen : ¬ rows.length = 0 := by
      simpa [List.length_eq_zero] using hne
    simp [batchPredict, hlen, hp]

theorem predict_failure_leaves_history_witness :
    ((singlePredict errModel okPdf [] 0 Option.none).file =
        (Option.none : HistoryFile) ∧
      (singlePredict errModel okPdf [] 0 Option.none).errMsg.isSome = true) ∧
    ((batchPredict errModel [[]] 0 Option.none).file =
        (Option.none : HistoryFile) ∧
      (batchPredict errModel [[]] 0 Option.none).errMsg.isSome = true) :=
  ⟨(predict_failure_leaves_history errModel okPdf [] [[]] 0 Option.none
      "boom" "boom").1 (by rfl),
   (predict_failure_leaves_history errModel okPdf [] [[]] 0 Option.none
      "boom" "boom").2 (by simp) (by rfl)⟩

/-- C5: on a non-empty batch the handler adapts every row and passes the
whole adapted batch to `model.predict` in exactly one call; whenever it
produces a result table, that table pairs the (column-filled) input rows,
in their input order, with the model's predictions, and has the same
length as the input. -/
theorem batch_single_call_same_order
    (m : Model) (rows : List Record) (now : Nat) (f : HistoryFile)
    (hne : rows ≠ []) :
    (batchPredict m rows now f).predictCalls =
      [batch_model_frame (model_feature_names m) rows] ∧
    (batch_model_frame (model_feature_names m) rows).rows.length =
      rows.length ∧
    (∀ out, (batchPredict m rows now f).table = some out →
      out.length = rows.length ∧
      out.map Prod.fst = rows.map fillMissingUIFields ∧
      ∃ preds, m.predict (batch_model_frame (model_feature_names m) rows) =
          Except.ok preds ∧
        preds.length = rows.length ∧ out.map Prod.snd = preds) := by
  have hlen : ¬ rows.length = 0 := by
    simpa [List.length_eq_zero] using hne
  refine ⟨?_, ?_, ?_⟩
  · simp only [batchPredict, if_neg hlen]
    cases hp : m.predict (batch_model_frame (model_feature_names m) rows) with
    | error e => simp
    | ok preds =>
      by_cases hl : preds.length = rows.length <;> simp [hl]
  · simp [batch_model_frame]
  · intro out hout
    simp only [batchPredict, if_neg hlen] at hout
    cases hp : m.predict (batch_model_frame (model_feature_names m) rows) with
    | error e => simp [hp] at hout
    | ok preds =>
      simp only [hp, List.length_map] at hout
      by_cases hl : preds.length = rows.length
      · simp only [if_pos hl, Option.some.injEq] at hout
        subst hout
        refine ⟨?_, ?_, preds, rfl, hl, ?_⟩
        · simp [List.length_zip, hl]
        · exact List.map_fst_zip _ _ (by simp [hl])
        · exact List.map_snd_zip _ _ (by simp [hl])
      · simp [if_neg hl] at hout

theorem batch_single_call_same_order_witness :
    (batchPredict okModel [[], []] 0 Option.none).predictCalls =
      [batch_model_frame (model_feature_names okModel) [[], []]] ∧
    (batch_model_frame (model_feature_names okModel) [[], []]).rows.length =
      ([[], []] : List Record).length ∧
    (∀ out, (batchPredict okModel [[], []] 0 Option.none).table = some out →
      out.length = ([[], []] : List Record).length ∧
      out.map Prod.fst = ([[], []] : List Record).map fillMissingUIFields ∧
      ∃ preds,
        okModel.predict (batch_model_frame (model_feature_names okModel) [[], []]) =
          Except.ok preds ∧
        preds.length = ([[], []] : List Record).length ∧
        out.map Prod.snd = preds) :=
  batch_single_call_same_order okModel [[], []] 0 Option.none (by simp)

/-- The field coercion exactly as the claim words it, for comparison with
the code: a missing, `None` or empty-string value and a string that does
not parse as a float become `0.0`; every other value is its float parse. -/
def claimedCoerceValue (v : Option PyVal) : PyNum :=
  match v with
  | Option.none => PyNum.fin 0
  | some PyVal.vNone => PyNum.fin 0
  | some (PyVal.vStr s) =>
    if s = "" then PyNum.fin 0
    else
      match pyFloatOfString s with
      | some x => x
      | Option.none => PyNum.fin 0
  | some (PyVal.vNum x) => x

/-- C2 counterexample: the string "nan" parses as a float (to NaN), so the
claimed coercion yields NaN, but the batch per-column coercion
(`to_numeric` followed by `fillna(0.0)`) yields `0.0` — the two adapters
do not both implement "otherwise the float parse of the value". -/
theorem batch_nan_coercion_cex :
    coerceBatchVal (some (PyVal.vStr "nan")) = PyNum.fin 0 ∧
    claimedCoerceValue (some (PyVal.vStr "nan")) = PyNum.nan ∧
    coerceSingleVal (some (PyVal.vStr "nan")) = PyNum.nan ∧
    PyNum.fin 0 ≠ PyNum.nan := by decide

/-- C2 as amended: for every value, the single-mode coercion is exactly the
claimed coercion (0.0 for missing / `None` / empty / unparsable, float
parse otherwise), while the batch-mode coercion additionally replaces a
NaN parse result by `0.0`; and no value ever makes the adapter reject the
record — it always emits exactly one row. -/
theorem adapter_coercion_characterization (v : Option PyVal)
    (modelFeatureNames : List String) (d : Record) :
    coerceSingleVal v = claimedCoerceValue v ∧
    coerceBatchVal v = fillnaZero (claimedCoerceValue v) ∧
    (prepare_model_df_from_ui_dict modelFeatureNames d).rows.length = 1 := by
  refine ⟨?_, ?_, by simp [prepare_model_df_from_ui_dict]⟩
  · cases v with
    | none => rfl
    | some w =>
      cases w with
      | vNone => rfl
      | vNum x => rfl
      | vStr s =>
        simp only [coerceSingleVal, claimedCoerceValue]
        by_cases hs : s = ""
        · simp [hs]
        · simp only [if_neg hs]
          cases pyFloatOfString s <;> rfl
  · cases v with
    | none => rfl
    | some w =>
      cases w with
      | vNone => rfl
      | vNum x => cases x <;> rfl
      | vStr s =>
        simp only [coerceBatchVal, toNumericCoerce, claimedCoerceValue]
        by_cases hs : s = ""
        · subst hs
          rw [show pyFloatOfString "" = Option.none from rfl]
          rfl
        · simp only [if_neg hs]
          cases pyFloatOfString s with
          | none => rfl
          | some x => rfl

/-- C3 counterexample: a declared feature-name order that is a strict
superset of the 8 expected fields does NOT take precedence — both adapters
fall back to the canonical `MODEL_FEATURES` order, because the guard
requires every declared name to be one of the built columns. -/
theorem declared_superset_falls_back_cex :
    (prepare_model_df_from_ui_dict (MODEL_FEATURES ++ ["extra"]) []).cols =
      MODEL_FEATURES ∧
    (batch_model_frame (MODEL_FEATURES ++ ["extra"]) [[]]).cols =
      MODEL_FEATURES ∧
    MODEL_FEATURES ≠ MODEL_FEATURES ++ ["extra"] := by decide

/-- C3 as amended: in both adaptation calls the declared order is used
exactly when every declared name is among the 8 canonical feature names
(a match or a subset of them); any declared name outside the 8 — in
particular a strict superset of the 8 — makes both adapters fall back to
the fixed canonical order. -/
theorem declared_order_iff_within_features
    (modelFeatureNames : List String) (d : Record) (rows : List Record) :
    ((∀ n ∈ modelFeatureNames, n ∈ MODEL_FEATURES) →
      (prepare_model_df_from_ui_dict modelFeatureNames d).cols =
        modelFeatureNames ∧
      (batch_model_frame modelFeatureNames rows).cols = modelFeatureNames) ∧
    ((∃ n ∈ modelFeatureNames, n ∉ MODEL_FEATURES) →
      (prepare_model_df_from_ui_dict modelFeatureNames d).cols =
        MODEL_FEATURES ∧
      (batch_model_frame modelFeatureNames rows).cols = MODEL_FEATURES) := by
  constructor
  · intro hall
    have hcond : modelFeatureNames.all (fun n => decide (n ∈ MODEL_FEATURES)) = true := by
      simp only [List.all_eq_true, decide_eq_true_eq]
      exact hall
    constructor
    · simp [prepare_model_df_from_ui_dict, chooseOrder, hcond]
    · simp [batch_model_frame, chooseOrder, hcond]
  · rintro ⟨n, hn, hnot⟩
    have hcond : ¬ modelFeatureNames.all (fun n => decide (n ∈ MODEL_FEATURES)) = true := by
      simp only [List.all_eq_true, decide_eq_true_eq]
      intro hall
      exact hnot (hall n hn)
    constructor
    · simp [prepare_model_df_from_ui_dict, chooseOrder, hcond]
    · simp [batch_model_frame, chooseOrder, hcond]

theorem declared_order_iff_within_features_witness :
    ((prepare_model_df_from_ui_dict ["1h", "price"] []).cols = ["1h", "price"] ∧
     (batch_model_frame ["1h", "price"] []).cols = ["1h", "price"]) ∧
    ((prepare_model_df_from_ui_dict (MODEL_FEATURES ++ ["x"]) []).cols =
        MODEL_FEATURES ∧
     (batch_model_frame (MODEL_FEATURES ++ ["x"]) []).cols = MODEL_FEATURES) :=
  ⟨(declared_order_iff_within_features ["1h", "price"] [] []).1 (by decide),
   (declared_order_iff_within_features (MODEL_FEATURES ++ ["x"]) [] []).2
     ⟨"x", by decide, by decide⟩⟩

/-- C9 counterexample: the input string "inf" parses as an infinite float,
so the single adapter emits an infinite `price` field (and the batch
coercion also passes infinity through); the string "nan" leaves NaN in
single mode.  The FeatureVector finiteness invariant fails. -/
theorem adapter_nonfinite_cex :
    (prepare_model_df_from_ui_dict MODEL_FEATURES
        [("price", PyVal.vStr "inf")]).rows =
      [[PyNum.inf, PyNum.fin 0, PyNum.fin 0, PyNum.fin 0, PyNum.fin 0,
        PyNum.fin 0, PyNum.fin 0, PyNum.fin 0]] ∧
    PyNum.isFinite PyNum.inf = false ∧
    coerceSingleVal (some (PyVal.vStr "nan")) = PyNum.nan ∧
    coerceBatchVal (some (PyVal.vStr "inf")) = PyNum.inf := by decide

/-- True when the supplied value is, or parses to, a non-finite float —
the inputs on which the adapters can emit a non-finite field. -/
def parsesNonFinite : Option PyVal → Bool
  | some (PyVal.vNum x) => !x.isFinite
  | some (PyVal.vStr s) =>
    match pyFloatOfString s with
    | some x => !x.isFinite
    | Option.none => false
  | _ => false

/-- C9 as amended: every field the adapters produce is finite provided the
supplied value neither is nor parses to a non-finite float (absent,
`None`, empty and non-numeric inputs still coerce to `0.0`); string inputs
such as "inf" (both modes) or "nan" (single mode) escape the invariant. -/
theorem adapter_finite_under_finite_inputs (v : Option PyVal)
    (h : parsesNonFinite v = false) :
    (coerceSingleVal v).isFinite = true ∧ (coerceBatchVal v).isFinite = true := by
  cases v with
  | none => exact ⟨rfl, rfl⟩
  | some w =>
    cases w with
    | vNone => exact ⟨rfl, rfl⟩
    | vNum x =>
      simp only [parsesNonFinite, Bool.not_eq_false'] at h
      refine ⟨h, ?_⟩
      cases x with
      | fin q => rfl
      | inf => exact h
      | negInf => exact h
      | nan => simp [PyNum.isFinite] at h
    | vStr s =>
      simp only [parsesNonFinite] at h
      simp only [coerceSingleVal, coerceBatchVal, toNumericCoerce]
      cases hps : pyFloatOfString s with
      | none =>
        constructor
        · by_cases hs : s = "" <;> simp [hs, hps, PyNum.isFinite, fillnaZero]
        · simp [hps, fillnaZero, PyNum.isFinite]
      | some x =>
        rw [hps] at h
        simp only [Bool.not_eq_false'] at h
        constructor
        · by_cases hs : s = ""
          · simp [hs, PyNum.isFinite]
          · simpa [hs, hps, PyNum.isFinite] using h
        · cases x with
          | fin q => simp [hps, fillnaZero, PyNum.isFinite]
          | inf => simp [PyNum.isFinite] at h
          | negInf => simp [PyNum.isFinite] at h
          | nan => simp [PyNum.isFinite] at h

theorem adapter_finite_under_finite_inputs_witness :
    parsesNonFinite (some (PyVal.vStr "N/A")) = false ∧
    (coerceSingleVal (some (PyVal.vStr "N/A"))).isFinite = true ∧
    (coerceBatchVal (some (PyVal.vStr "N/A"))).isFinite = true :=
  ⟨by decide,
   (adapter_finite_under_finite_inputs (some (PyVal.vStr "N/A")) (by decide)).1,
   (adapter_finite_under_finite_inputs (some (PyVal.vStr "N/A")) (by decide)).2⟩

/-- One uploaded row carrying an extra column beyond the UI fields. -/
def cexRow : Record :=
  [("price", PyVal.vNum (PyNum.fin 1)), ("extra", PyVal.vStr "x")]

/-- C8 counterexample: on a successful batch with an extra column, the
output table still carries the extra column's value, but the history row
written for the same prediction does not — extra columns are dropped from
the history log, contradicting "passed through to both". -/
theorem history_drops_extra_column_cex :
    ((batchPredict okModel [cexRow] 0 Option.none).table).map
        (fun out => out.map fun rp => getVal rp.1 "extra") =
      some [some (PyVal.vStr "x")] ∧
    (readAll (batchPredict okModel [cexRow] 0 Option.none).file).map
        (fun r => getVal r.inputs "extra") = [Option.none] := by decide

lemma mem_chooseOrder (modelFeatureNames : List String) (c : String)
    (hc : c ∈ chooseOrder modelFeatureNames) : c ∈ MODEL_FEATURES := by
  unfold chooseOrder at hc
  by_cases hcond :
      modelFeatureNames.all (fun n => decide (n ∈ MODEL_FEATURES)) = true
  · rw [if_pos hcond] at hc
    have := List.all_eq_true.mp hcond c hc
    simpa using this
  · rw [if_neg hcond] at hc
    exact hc

lemma batchPredict_success_spec (m : Model) (rows : List Record) (now : Nat)
    (f : HistoryFile) (out : List (Record × PyNum))
    (hout : (batchPredict m rows now f).table = some out) :
    ∃ preds, preds.length = rows.length ∧
      out = (rows.map fillMissingUIFields).zip preds ∧
      (batchPredict m rows now f).file =
        save_history_csv f
          ((rows.map fillMissingUIFields).map uiRowForHistory)
          preds "batch" now := by
  by_cases hlen : rows.length = 0
  · simp [batchPredict, hlen] at hout
  · simp only [batchPredict, if_neg hlen] at hout ⊢
    cases hp : m.predict (batch_model_frame (model_feature_names m) rows) with
    | error e => simp [hp] at hout
    | ok preds =>
      simp only [hp, List.length_map] at hout ⊢
      by_cases hl : preds.length = rows.length
      · simp only [if_pos hl, Option.some.injEq] at hout ⊢
        exact ⟨preds, hl, hout.symm, by simp⟩
      · simp [if_neg hl] at hout

/-- C8 as amended: extra columns of a batch upload never reach the model
(every column of the model frame is one of the 8 features); they survive
the column-filling step and are therefore passed through, with each row's
prediction, to the output table; but the rows written to the history log
keep exactly the `UI_FIELDS` columns, so an extra column is NOT recorded
in the history. -/
theorem batch_extra_columns_flow
    (m : Model) (rows : List Record) (now : Nat) (f : HistoryFile)
    (k : String) (v : PyVal) (hk : k ∉ UI_FIELDS) :
    (∀ c ∈ (batch_model_frame (model_feature_names m) rows).cols,
      c ∈ MODEL_FEATURES) ∧
    (∀ d : Record, getVal d k = some v →
      getVal (fillMissingUIFields d) k = some v) ∧
    (∀ out, (batchPredict m rows now f).table = some out →
      out.map Prod.fst = rows.map fillMissingUIFields) ∧
    (∀ d : Record, (uiRowForHistory d).map Prod.fst = UI_FIELDS ∧
      getVal (uiRowForHistory d) k = Option.none) ∧
    (∀ out, (batchPredict m rows now f).table = some out →
      readAll (batchPredict m rows now f).file =
        readAll f ++ out.map fun rp =>
          { inputs := uiRowForHistory rp.1, prediction := rp.2,
            mode := "batch", timestamp := now }) := by
  refine ⟨?_, ?_, ?_, ?_, ?_⟩
  · intro c hc
    exact mem_chooseOrder _ c (by simpa [batch_model_frame] using hc)
  · intro d hd
    exact getVal_append_left d _ k v hd
  · intro out hout
    obtain ⟨preds, hl, rfl, _⟩ := batchPredict_success_spec m rows now f out hout
    exact List.map_fst_zip _ _ (by simp [hl])
  · intro d
    constructor
    · simp only [uiRowForHistory, List.map_map]
      exact List.map_id UI_FIELDS
    · exact lookup_map_keys UI_FIELDS _ k hk
  · intro out hout
    obtain ⟨preds, hl, hout_eq, hfile⟩ :=
      batchPredict_success_spec m rows now f out hout
    rw [hfile, readAll_save, hout_eq]
    congr 1
    rw [List.zip_map_left, List.map_map]
    rfl

theorem batch_extra_columns_flow_witness :
    (∀ c ∈ (batch_model_frame (model_feature_names okModel) [cexRow]).cols,
      c ∈ MODEL_FEATURES) ∧
    (∀ d : Record, getVal d "extra" = some (PyVal.vStr "x") →
      getVal (fillMissingUIFields d) "extra" = some (PyVal.vStr "x")) ∧
    (∀ out, (batchPredict okModel [cexRow] 0 Option.none).table = some out →
      out.map Prod.fst = [cexRow].map fillMissingUIFields) ∧
    (∀ d : Record, (uiRowForHistory d).map Prod.fst = UI_FIELDS ∧
      getVal (uiRowForHistory d) "extra" = Option.none) ∧
    (∀ out, (batchPredict okModel [cexRow] 0 Option.none).table = some out →
      readAll (batchPredict okModel [cexRow] 0 Option.none).file =
        readAll (Option.none : HistoryFile) ++ out.map fun rp =>
          { inputs := uiRowForHistory rp.1, prediction := rp.2,
            mode := "batch", timestamp := 0 }) :=
  batch_extra_columns_flow okModel [cexRow] 0 Option.none "extra"
    (PyVal.vStr "x") (by decide)
